import Mathlib

/-!
Shallow embedding of the Android external view embedder
(shell/platform/android/external_view_embedder/external_view_embedder.cc,
class AndroidExternalViewEmbedder) together with the Skia rectangle
operations it relies on, and proofs of the frozen claims about it.

Modelling conventions:
- SkScalar coordinates are modelled as rationals (ℚ).
- The per-slot r-tree (sk_sp of RTree) is modelled by its single query
  function searchNonOverlappingDrawnRects; its contents are produced by the
  external GPU drawing backend, so states quantify over arbitrary queries.
- Host (JNI) calls, canvas mutations and thread-merger operations are
  recorded as an explicit effect list in the order the code issues them.
- Fatal paths (std::map::at on a missing key, a failing FML_CHECK) are
  modelled as Option.none.
-/

/-- Skia rectangle: fLeft, fTop, fRight, fBottom (SkScalar as ℚ). -/
structure SkRect where
  left : ℚ
  top : ℚ
  right : ℚ
  bottom : ℚ
  deriving DecidableEq

/-- SkRect::isEmpty: true unless fLeft < fRight and fTop < fBottom. -/
def SkRect.isEmpty (r : SkRect) : Bool :=
  r.right ≤ r.left || r.bottom ≤ r.top

/-- SkRect::join(r): no-op when r is empty; assignment when this is empty;
componentwise min/max otherwise. The receiver is the first argument. -/
def SkRect.join (a b : SkRect) : SkRect :=
  if b.isEmpty then a
  else if a.isEmpty then b
  else ⟨min a.left b.left, min a.top b.top, max a.right b.right, max a.bottom b.bottom⟩

/-- SkRect::roundOut followed by SkRect::set of the resulting SkIRect:
floor of the left/top edges, ceiling of the right/bottom edges. -/
def SkRect.roundOut (r : SkRect) : SkRect :=
  ⟨(⌊r.left⌋ : ℤ), (⌊r.top⌋ : ℤ), (⌈r.right⌉ : ℤ), (⌈r.bottom⌉ : ℤ)⟩

/-- SkRect::MakeEmpty: the all-zero rectangle. -/
def SkRect.MakeEmpty : SkRect := ⟨0, 0, 0, 0⟩

/-- SkRect::MakeXYWH. -/
def SkRect.MakeXYWH (x y w h : ℚ) : SkRect := ⟨x, y, x + w, y + h⟩

/-- Containment of rectangles, edge by edge: outer encloses inner. -/
def SkRect.encloses (outer inner : SkRect) : Prop :=
  outer.left ≤ inner.left ∧ outer.top ≤ inner.top ∧
  inner.right ≤ outer.right ∧ inner.bottom ≤ outer.bottom

/-- All four coordinates of the rectangle are integers. -/
def SkRect.isIntegral (r : SkRect) : Prop :=
  r.left.den = 1 ∧ r.top.den = 1 ∧ r.right.den = 1 ∧ r.bottom.den = 1

/-- Platform view identifier (int64_t view_id). -/
abbrev ViewId := Int

/-- Modelled from the spec: EmbeddedViewParams (flow/embedded_views.h is not
under src/) is an immutable per-frame descriptor with a position offset
(here the origin of finalBoundingRect), a logical size (sizePoints) and an
opaque transform/clip descriptor; it is value-comparable. -/
structure EmbeddedViewParams where
  offsetX : ℚ
  offsetY : ℚ
  widthPoints : ℚ
  heightPoints : ℚ
  mutatorsTag : Nat
  deriving DecidableEq

/-- Modelled from the spec: SurfacePool (surface_pool.cc is not under src/)
keeps every overlay layer created so far; layers before available_index are
in use this frame, the rest are free. GetLayer reuses a free layer when one
exists and otherwise creates and registers a fresh one; RecycleLayers marks
all layers free without destroying any. Layers are identified by ids. -/
structure SurfacePool where
  layers : List Nat
  available_index : Nat
  deriving DecidableEq

/-- Modelled from the spec: SurfacePool::GetLayer returns a free
previously-created layer if one exists; otherwise creates one via the
factory and registers it. -/
def SurfacePool.GetLayer (p : SurfacePool) : Nat × SurfacePool :=
  match p.layers.get? p.available_index with
  | some layer_id => (layer_id, { p with available_index := p.available_index + 1 })
  | none =>
      (p.layers.length,
       { layers := p.layers ++ [p.layers.length],
         available_index := p.available_index + 1 })

/-- Modelled from the spec: SurfacePool::RecycleLayers marks all in-use
layers free for the next frame without destroying them. -/
def SurfacePool.RecycleLayers (p : SurfacePool) : SurfacePool :=
  { p with available_index := 0 }

/-- An r-tree is modelled by its query searchNonOverlappingDrawnRects:
given a query rectangle it returns the non-overlapping rectangles bounding
drawn content that intersect it. -/
abbrev RTreeModel := SkRect → List SkRect

/-- PostPrerollResult (kSuccess / kResubmitFrame). -/
inductive PostPrerollResult where
  | kSuccess
  | kResubmitFrame
  deriving DecidableEq

/-- Observable operations the embedder issues, in program order: JNI host
calls, background/overlay canvas operations, frame submissions, and the
raster thread merger operations. -/
inductive Effect where
  | displayPlatformView (view_id : ViewId) (frame : SkRect)
  | displayOverlaySurface (layer_id : Nat) (frame : SkRect)
  | clipRectDifference (r : SkRect)
  | drawPictureBackground (view_id : ViewId)
  | submitBackgroundFrame
  | drawPictureOverlay (view_id : ViewId) (layer_id : Nat)
  | submitOverlaySurface (layer_id : Nat)
  | frameBeginSignal
  | frameEndSignal
  | extendLeaseTo (frames : Nat)
  | mergeWithLease (frames : Nat)
  deriving DecidableEq

/-- Mutable state of AndroidExternalViewEmbedder: frame_size_,
device_pixel_ratio_ (field dpr here), composition_order_,
picture_recorders_ (modelled by its key set, recording contents being
external), view_rtrees_, view_params_, the resubmission flag
should_run_rasterizer_on_platform_thread_, and the surface pool. -/
structure EmbedderState where
  frame_size : Int × Int
  dpr : ℚ
  composition_order : List ViewId
  picture_recorders : List ViewId
  view_rtrees : List (ViewId × RTreeModel)
  view_params : List (ViewId × EmbeddedViewParams)
  should_run_rasterizer_on_platform_thread : Bool
  surface_pool : SurfacePool

/-- Lookup in an association list with unique keys, modelling
std::map::at / count on the identifier-keyed maps of the embedder. -/
def alookup {β : Type} (k : ViewId) : List (ViewId × β) → Option β
  | [] => none
  | (k₁, v) :: rest => if k₁ = k then some v else alookup k rest

/-- std::map::insert_or_assign on an association list with unique keys:
replace the first binding of the key, or append a new binding. -/
def insertOrAssign {β : Type} (k : ViewId) (v : β) : List (ViewId × β) → List (ViewId × β)
  | [] => [(k, v)]
  | (k₁, v₁) :: rest =>
      if k₁ = k then (k, v) :: rest else (k₁, v₁) :: insertOrAssign k v rest

/-- Modelled from the spec: kDefaultMergedLeaseDuration is declared in the
header (not under src/); the spec leaves the value open and the code
comment only requires it to be at least 1. The concrete value is irrelevant
to every claim. -/
def kDefaultMergedLeaseDuration : Nat := 10

namespace AndroidExternalViewEmbedder

/-- AndroidExternalViewEmbedder::Reset: clears composition_order_ and
picture_recorders_ and nothing else. -/
def Reset (st : EmbedderState) : EmbedderState :=
  { st with composition_order := [], picture_recorders := [] }

/-- AndroidExternalViewEmbedder::CancelFrame: calls Reset. -/
def CancelFrame (st : EmbedderState) : EmbedderState :=
  Reset st

/-- AndroidExternalViewEmbedder::BeginFrame: Reset, record frame size and
device pixel ratio, and emit FlutterViewBeginFrame when on the platform
thread (IsOnPlatformThread is passed in as a Bool). -/
def BeginFrame (fs : Int × Int) (scale : ℚ) (onPlatformThread : Bool)
    (st : EmbedderState) : EmbedderState × List Effect :=
  ({ Reset st with frame_size := fs, dpr := scale },
   if onPlatformThread then [Effect.frameBeginSignal] else [])

/-- AndroidExternalViewEmbedder::PrerollCompositeEmbeddedView: installs a
fresh (empty) r-tree and a fresh picture recorder for the view, appends the
view to composition_order_, and assigns the params only when they differ
from the stored ones. -/
def PrerollCompositeEmbeddedView (view_id : ViewId) (params : EmbeddedViewParams)
    (st : EmbedderState) : EmbedderState :=
  let st₁ : EmbedderState :=
    { st with
      view_rtrees := insertOrAssign view_id (fun _ => ([] : List SkRect)) st.view_rtrees,
      picture_recorders :=
        if view_id ∈ st.picture_recorders then st.picture_recorders
        else st.picture_recorders ++ [view_id],
      composition_order := st.composition_order ++ [view_id] }
  if alookup view_id st.view_params = some params then st₁
  else { st₁ with view_params := insertOrAssign view_id params st₁.view_params }

/-- Comparison definition, following the words of the spec: the same
operation without the value-equality check, so that the check can be shown
to be a pure optimization with no behavioral effect. -/
def PrerollAlwaysAssign (view_id : ViewId) (params : EmbeddedViewParams)
    (st : EmbedderState) : EmbedderState :=
  { st with
    view_rtrees := insertOrAssign view_id (fun _ => ([] : List SkRect)) st.view_rtrees,
    picture_recorders :=
      if view_id ∈ st.picture_recorders then st.picture_recorders
      else st.picture_recorders ++ [view_id],
    composition_order := st.composition_order ++ [view_id],
    view_params := insertOrAssign view_id params st.view_params }

/-- AndroidExternalViewEmbedder::GetViewRect: MakeXYWH of the stored
finalBoundingRect origin (unscaled) and sizePoints scaled by
device_pixel_ratio_; none models the fatal map::at on a missing key. -/
def GetViewRect (st : EmbedderState) (view_id : ViewId) : Option SkRect :=
  (alookup view_id st.view_params).map fun params =>
    SkRect.MakeXYWH params.offsetX params.offsetY
      (params.widthPoints * st.dpr) (params.heightPoints * st.dpr)

/-- Lines 114 to 134 of SubmitFrame, for one occlusion query: when the
query returns more than kMaxLayerAllocations rectangles they are joined
into a single rectangle and every surviving rectangle is rounded outward.
The C++ declares the accumulator as SkRect joined_rect without an
initializer, so its initial value is indeterminate; that initial value is
made explicit here as the garbage argument. The cap kMaxLayerAllocations
is declared in the header (not under src/), so it is passed as an
argument; the spec gives it no concrete value. -/
def processIntersections (cap : Nat) (garbage : SkRect)
    (intersection_rects : List SkRect) : List SkRect :=
  let collapsed :=
    if intersection_rects.length > cap then
      [intersection_rects.foldl SkRect.join garbage]
    else intersection_rects
  collapsed.map SkRect.roundOut

/-- Inner loop of SubmitFrame over j from i down to 0: the argument list
holds composition_order_ entries up to slot i in descending j order. For
each entry the view rectangle is computed, the r-tree of slot i is queried,
the result list is collapsed and rounded, each resulting rectangle is
recorded as an overlay rectangle of slot i, and a difference clip of the
background canvas is issued. -/
def slotQueryLoop (cap : Nat) (garbage : SkRect) (st : EmbedderState)
    (rtree : RTreeModel) : List ViewId → Option (List SkRect × List Effect)
  | [] => some ([], [])
  | v :: rest => do
      let current_view_rect ← GetViewRect st v
      let rects := processIntersections cap garbage (rtree current_view_rect)
      let (restRects, restEffs) ← slotQueryLoop cap garbage st rtree rest
      some (rects ++ restRects, rects.map Effect.clipRectDifference ++ restEffs)

/-- Outer background loop of SubmitFrame over composition_order_ (first
argument: the remaining order; second: the already visited entries in
reverse; third: the views whose recorder was already finished). Finishing
the recording of a view twice fails the FML_CHECK on the picture, and a
missing recorder or r-tree is a fatal map::at, both modelled as none. Per
slot it runs the query loop and then draws the picture of the slot on the
background canvas. Returns the overlay rectangles per view and the
background effects. -/
def backgroundLoop (cap : Nat) (garbage : SkRect) (st : EmbedderState) :
    List ViewId → List ViewId → List ViewId →
    Option (List (ViewId × List SkRect) × List Effect)
  | [], _, _ => some ([], [])
  | v :: rest, seenRev, finished =>
      if v ∈ finished then none
      else if v ∈ st.picture_recorders then do
        let rtree ← alookup v st.view_rtrees
        let (slotRects, slotEffs) ← slotQueryLoop cap garbage st rtree (v :: seenRev)
        let (restOverlays, restEffs) ←
          backgroundLoop cap garbage st rest (v :: seenRev) (finished ++ [v])
        some ((v, slotRects) :: restOverlays,
              slotEffs ++ [Effect.drawPictureBackground v] ++ restEffs)
      else none

/-- CreateSurfaceIfNeeded, applied to each overlay rectangle of a slot:
acquire a layer from the pool, display the overlay surface at the
rectangle, draw the slot picture translated into it, and submit it. -/
def overlaySubmitLoop (view_id : ViewId) : List SkRect → SurfacePool →
    SurfacePool × List Effect
  | [], pool => (pool, [])
  | r :: rest, pool =>
      let acquired := SurfacePool.GetLayer pool
      let next := overlaySubmitLoop view_id rest acquired.2
      (next.1,
       Effect.displayOverlaySurface acquired.1 r ::
       Effect.drawPictureOverlay view_id acquired.1 ::
       Effect.submitOverlaySurface acquired.1 :: next.2)

/-- Second loop of SubmitFrame over composition_order_: display each
platform view at its view rectangle, then create and submit an overlay
surface for each of its overlay rectangles. -/
def placementLoop (st : EmbedderState) (overlays : List (ViewId × List SkRect)) :
    List ViewId → SurfacePool → Option (SurfacePool × List Effect)
  | [], pool => some (pool, [])
  | v :: rest, pool => do
      let view_rect ← GetViewRect st v
      let slotRects ← alookup v overlays
      let acquired := overlaySubmitLoop v slotRects pool
      let (pool₂, restEffs) ← placementLoop st overlays rest acquired.1
      some (pool₂, Effect.displayPlatformView v view_rect :: (acquired.2 ++ restEffs))

/-- AndroidExternalViewEmbedder::SubmitFrame: a no-op returning true when
the resubmission flag is set; otherwise runs the background loop, submits
the background frame, then runs the placement loop, and returns true. -/
def SubmitFrame (cap : Nat) (garbage : SkRect) (st : EmbedderState) :
    Option (EmbedderState × List Effect × Bool) :=
  if st.should_run_rasterizer_on_platform_thread then some (st, [], true)
  else do
    let (overlays, bgEffs) ← backgroundLoop cap garbage st st.composition_order [] []
    let (pool, placeEffs) ← placementLoop st overlays st.composition_order st.surface_pool
    some ({ st with surface_pool := pool },
          bgEffs ++ [Effect.submitBackgroundFrame] ++ placeEffs, true)

/-- AndroidExternalViewEmbedder::PostPrerollAction: with platform views and
merged threads, extend the lease; with platform views and unmerged
threads, set the resubmission flag, CancelFrame, and return kResubmitFrame
without invoking any thread-merger operation; otherwise return kSuccess.
The merged state of the raster thread merger is passed in as a Bool. -/
def PostPrerollAction (isMerged : Bool) (st : EmbedderState) :
    PostPrerollResult × EmbedderState × List Effect :=
  if st.composition_order.length > 0 then
    if isMerged then
      (PostPrerollResult.kSuccess, st, [Effect.extendLeaseTo kDefaultMergedLeaseDuration])
    else
      (PostPrerollResult.kResubmitFrame,
       CancelFrame { st with should_run_rasterizer_on_platform_thread := true },
       [])
  else
    (PostPrerollResult.kSuccess, st, [])

/-- AndroidExternalViewEmbedder::EndFrame: when should_resubmit_frame and
the resubmission flag are both set, merge the threads with the default
lease and clear the flag; always recycle the pool layers; emit
FlutterViewEndFrame when on the platform thread. -/
def EndFrame (should_resubmit_frame : Bool) (onPlatformThread : Bool)
    (st : EmbedderState) : EmbedderState × List Effect :=
  let merged :=
    if should_resubmit_frame && st.should_run_rasterizer_on_platform_thread then
      ({ st with should_run_rasterizer_on_platform_thread := false },
       [Effect.mergeWithLease kDefaultMergedLeaseDuration])
    else (st, ([] : List Effect))
  ({ merged.1 with surface_pool := SurfacePool.RecycleLayers merged.1.surface_pool },
   merged.2 ++ (if onPlatformThread then [Effect.frameEndSignal] else []))

/-- Sequence of PrerollCompositeEmbeddedView calls within one frame, in
call order. -/
def prerollSequence : List (ViewId × EmbeddedViewParams) → EmbedderState → EmbedderState
  | [], st => st
  | (v, p) :: rest, st =>
      prerollSequence rest (PrerollCompositeEmbeddedView v p st)

end AndroidExternalViewEmbedder

/-- A rectangle that is the outward rounding of some rectangle. -/
def RoundedRect (r : SkRect) : Prop :=
  ∃ s : SkRect, r = SkRect.roundOut s

open AndroidExternalViewEmbedder

/-- Empty surface pool. -/
def pool0 : SurfacePool := { layers := [], available_index := 0 }

/-- Freshly constructed embedder with an empty 100 by 100 frame. -/
def st0 : EmbedderState :=
  { frame_size := (100, 100), dpr := 1, composition_order := [],
    picture_recorders := [], view_rtrees := [], view_params := [],
    should_run_rasterizer_on_platform_thread := false, surface_pool := pool0 }

/-- State with a single prerolled view and nothing else. -/
def stOne : EmbedderState := { st0 with composition_order := [1] }

/-- State whose resubmission flag is set. -/
def stResub : EmbedderState :=
  { st0 with should_run_rasterizer_on_platform_thread := true }

/-- Concrete params: offset (1, 2), logical size 4 by 5. -/
def pA : EmbeddedViewParams :=
  { offsetX := 1, offsetY := 2, widthPoints := 4, heightPoints := 5, mutatorsTag := 0 }

/-- State with stored params for view 3 and a pixel ratio of 2. -/
def stParams : EmbedderState := { st0 with dpr := 2, view_params := [(3, pA)] }

/-- An indeterminate value the uninitialized SkRect accumulator may hold:
a non-empty rectangle. -/
def garbageC3 : SkRect := ⟨0, 0, 100, 100⟩

/-- Two disjoint rectangles returned by one occlusion query. -/
def rectsC3 : List SkRect := [⟨10, 10, 20, 20⟩, ⟨30, 30, 40, 40⟩]

/-- State with one prerolled view (id 7) at the origin, logical size 50 by
50, pixel ratio 1, whose r-tree query always returns rectsC3. -/
def stC3 : EmbedderState :=
  { st0 with
    composition_order := [7],
    picture_recorders := [7],
    view_rtrees := [(7, fun _ => rectsC3)],
    view_params :=
      [(7, { offsetX := 0, offsetY := 0, widthPoints := 50, heightPoints := 50,
             mutatorsTag := 0 })] }

/-- Effects SubmitFrame issues on stC3 with cap 1 and accumulator value
garbageC3: the clip and the overlay placement use (0, 0, 100, 100), the
join of rectsC3 into the indeterminate accumulator. -/
def effC3 : List Effect :=
  [Effect.clipRectDifference ⟨0, 0, 100, 100⟩,
   Effect.drawPictureBackground 7,
   Effect.submitBackgroundFrame,
   Effect.displayPlatformView 7 ⟨0, 0, 50, 50⟩,
   Effect.displayOverlaySurface 0 ⟨0, 0, 100, 100⟩,
   Effect.drawPictureOverlay 7 0,
   Effect.submitOverlaySurface 0]

/-- Full output of SubmitFrame on stC3: one overlay layer was created. -/
def outC3 : EmbedderState × List Effect × Bool :=
  ({ stC3 with surface_pool := { layers := [0], available_index := 1 } }, effC3, true)

theorem alookup_insertOrAssign_self {β : Type} (k : ViewId) (v : β)
    (m : List (ViewId × β)) (h : alookup k m = some v) :
    insertOrAssign k v m = m := by
  induction m with
  | nil => simp [alookup] at h
  | cons kv rest ih =>
      obtain ⟨k₁, v₁⟩ := kv
      by_cases hk : k₁ = k
      · subst hk
        simp [alookup] at h
        simp [insertOrAssign, h]
      · simp [alookup, hk] at h
        simp [insertOrAssign, hk, ih h]

theorem alookup_mem {β : Type} (k : ViewId) (v : β) (m : List (ViewId × β))
    (h : alookup k m = some v) : (k, v) ∈ m := by
  induction m with
  | nil => simp [alookup] at h
  | cons kv rest ih =>
      obtain ⟨k₁, v₁⟩ := kv
      by_cases hk : k₁ = k
      · subst hk
        simp [alookup] at h
        simp [h]
      · simp [alookup, hk] at h
        exact List.mem_cons_of_mem _ (ih h)

theorem preroll_composition_order (view_id : ViewId) (params : EmbeddedViewParams)
    (st : EmbedderState) :
    (PrerollCompositeEmbeddedView view_id params st).composition_order =
      st.composition_order ++ [view_id] := by
  by_cases hp : alookup view_id st.view_params = some params <;>
    simp [PrerollCompositeEmbeddedView, hp]

theorem prerollSequence_composition_order
    (calls : List (ViewId × EmbeddedViewParams)) (st : EmbedderState) :
    (prerollSequence calls st).composition_order =
      st.composition_order ++ calls.map Prod.fst := by
  induction calls generalizing st with
  | nil => simp [prerollSequence]
  | cons c rest ih =>
      obtain ⟨v, p⟩ := c
      rw [prerollSequence, ih, preroll_composition_order, List.append_assoc]
      rfl

/-- C1: PostPrerollAction returns kResubmitFrame exactly when
composition_order_ is non-empty and the thread contexts are unmerged;
composition_order_ is empty immediately after such a return; and whenever
composition_order_ is empty it returns kSuccess, leaves the whole state
untouched, and invokes no thread-merger operation. -/
theorem postPrerollAction_result_spec (isMerged : Bool) (st : EmbedderState) :
    ((PostPrerollAction isMerged st).1 = PostPrerollResult.kResubmitFrame ↔
      st.composition_order ≠ [] ∧ isMerged = false) ∧
    ((PostPrerollAction isMerged st).1 = PostPrerollResult.kResubmitFrame →
      (PostPrerollAction isMerged st).2.1.composition_order = []) ∧
    (st.composition_order = [] →
      (PostPrerollAction isMerged st).1 = PostPrerollResult.kSuccess ∧
      (PostPrerollAction isMerged st).2.1 = st ∧
      (PostPrerollAction isMerged st).2.2 = []) := by
  cases hord : st.composition_order with
  | nil => cases isMerged <;> simp [PostPrerollAction, hord]
  | cons a rest =>
      cases isMerged <;>
        simp [PostPrerollAction, hord, CancelFrame, Reset]

/-- Witness for C1 at a state with one prerolled view and unmerged
contexts. -/
theorem postPrerollAction_result_spec_witness :
    (((PostPrerollAction false stOne).1 = PostPrerollResult.kResubmitFrame ↔
        stOne.composition_order ≠ [] ∧ false = false) ∧
      ((PostPrerollAction false stOne).1 = PostPrerollResult.kResubmitFrame →
        (PostPrerollAction false stOne).2.1.composition_order = []) ∧
      (stOne.composition_order = [] →
        (PostPrerollAction false stOne).1 = PostPrerollResult.kSuccess ∧
        (PostPrerollAction false stOne).2.1 = stOne ∧
        (PostPrerollAction false stOne).2.2 = [])) :=
  postPrerollAction_result_spec false stOne

/-- C2 counterexample: with one prerolled view and unmerged contexts,
PostPrerollAction returns kResubmitFrame yet issues no thread-merger
operation at all, so PostPrerollAction itself does not request the
merge. -/
theorem postPrerollAction_issues_no_merge_request :
    (PostPrerollAction false stOne).1 = PostPrerollResult.kResubmitFrame ∧
    (PostPrerollAction false stOne).2.2 = [] := ⟨rfl, rfl⟩

/-- C2 (amended): with a non-empty CompositionOrder and unmerged contexts,
PostPrerollAction marks the frame for resubmission, cancels the current
FrameState exactly as CancelFrame does, returns kResubmitFrame, and itself
invokes no coordinator operation; the merge is requested from the
coordinator later, by EndFrame, which merges with the default lease and
clears the flag whenever its resubmit argument and the flag are both
set. -/
theorem postPrerollAction_resubmit_protocol (st st₂ : EmbedderState)
    (onPlat : Bool) (h : st.composition_order ≠ [])
    (h₂ : st₂.should_run_rasterizer_on_platform_thread = true) :
    (PostPrerollAction false st).1 = PostPrerollResult.kResubmitFrame ∧
    (PostPrerollAction false st).2.1 =
      CancelFrame { st with should_run_rasterizer_on_platform_thread := true } ∧
    (PostPrerollAction false st).2.1.should_run_rasterizer_on_platform_thread = true ∧
    (PostPrerollAction false st).2.2 = [] ∧
    Effect.mergeWithLease kDefaultMergedLeaseDuration ∈ (EndFrame true onPlat st₂).2 ∧
    (EndFrame true onPlat st₂).1.should_run_rasterizer_on_platform_thread = false := by
  cases hord : st.composition_order with
  | nil => exact absurd hord h
  | cons a rest =>
      refine ⟨?_, ?_, ?_, ?_, ?_, ?_⟩ <;>
        simp [PostPrerollAction, EndFrame, hord, h₂, CancelFrame, Reset,
          SurfacePool.RecycleLayers]

/-- Witness for C2 (amended). -/
theorem postPrerollAction_resubmit_protocol_witness :
    stOne.composition_order ≠ [] ∧
    stResub.should_run_rasterizer_on_platform_thread = true ∧
    ((PostPrerollAction false stOne).1 = PostPrerollResult.kResubmitFrame ∧
     (PostPrerollAction false stOne).2.1 =
       CancelFrame { stOne with should_run_rasterizer_on_platform_thread := true } ∧
     (PostPrerollAction false stOne).2.1.should_run_rasterizer_on_platform_thread = true ∧
     (PostPrerollAction false stOne).2.2 = [] ∧
     Effect.mergeWithLease kDefaultMergedLeaseDuration ∈ (EndFrame true false stResub).2 ∧
     (EndFrame true false stResub).1.should_run_rasterizer_on_platform_thread = false) :=
  ⟨by decide, rfl, postPrerollAction_resubmit_protocol stOne stResub false (by decide) rfl⟩

/-- C4: when a resubmission is pending SubmitFrame is a no-op returning
true: the returned state is exactly the input state (so nothing is drawn,
no layer is acquired, the pool is untouched) and no effect is issued. -/
theorem submitFrame_noop_when_resubmitting (cap : Nat) (garbage : SkRect)
    (st : EmbedderState)
    (h : st.should_run_rasterizer_on_platform_thread = true) :
    SubmitFrame cap garbage st = some (st, [], true) := by
  simp [SubmitFrame, h]

/-- Witness for C4. -/
theorem submitFrame_noop_when_resubmitting_witness :
    stResub.should_run_rasterizer_on_platform_thread = true ∧
    SubmitFrame 0 SkRect.MakeEmpty stResub = some (stResub, [], true) :=
  ⟨rfl, submitFrame_noop_when_resubmitting 0 SkRect.MakeEmpty stResub rfl⟩

/-- C6: after BeginFrame the CompositionOrder is empty, and after any
sequence of preroll calls within the frame it equals exactly the sequence
of prerolled view ids in call order, repeats included; hence no entry
exists for an id never prerolled that frame. -/
theorem composition_order_tracks_preroll_calls
    (calls : List (ViewId × EmbeddedViewParams)) (fs : Int × Int) (scale : ℚ)
    (onPlat : Bool) (st : EmbedderState) :
    (BeginFrame fs scale onPlat st).1.composition_order = [] ∧
    (prerollSequence calls (BeginFrame fs scale onPlat st).1).composition_order =
      calls.map Prod.fst := by
  refine ⟨rfl, ?_⟩
  rw [prerollSequence_composition_order]
  rfl

/-- C7: EndFrame always recycles all overlay layers: the pool keeps
exactly the same layers and all of them are marked free, for every value
of the resubmit argument, of the resubmission flag, and of the
platform-thread state. -/
theorem endFrame_always_recycles (should_resubmit_frame onPlat : Bool)
    (st : EmbedderState) :
    (EndFrame should_resubmit_frame onPlat st).1.surface_pool.layers =
      st.surface_pool.layers ∧
    (EndFrame should_resubmit_frame onPlat st).1.surface_pool.available_index = 0 := by
  unfold EndFrame
  by_cases hc : should_resubmit_frame && st.should_run_rasterizer_on_platform_thread <;>
    simp [hc, SurfacePool.RecycleLayers]

/-- C8: for a prerolled view, GetViewRect is the stored offset unscaled and
the stored logical size scaled by the device pixel ratio. -/
theorem getViewRect_offset_unscaled_size_scaled (st : EmbedderState)
    (view_id : ViewId) (p : EmbeddedViewParams)
    (h : alookup view_id st.view_params = some p) :
    GetViewRect st view_id = some
      { left := p.offsetX, top := p.offsetY,
        right := p.offsetX + p.widthPoints * st.dpr,
        bottom := p.offsetY + p.heightPoints * st.dpr } := by
  simp [GetViewRect, h, SkRect.MakeXYWH]

/-- Witness for C8. -/
theorem getViewRect_offset_unscaled_size_scaled_witness :
    alookup 3 stParams.view_params = some pA ∧
    GetViewRect stParams 3 = some
      { left := pA.offsetX, top := pA.offsetY,
        right := pA.offsetX + pA.widthPoints * stParams.dpr,
        bottom := pA.offsetY + pA.heightPoints * stParams.dpr } :=
  ⟨rfl, getViewRect_offset_unscaled_size_scaled stParams 3 pA rfl⟩

/-- C9: a repeat preroll with value-equal params leaves the stored params
map unchanged, and the whole resulting state equals that of the
unconditional-assignment variant: the skipped update has no behavioral
effect. -/
theorem preroll_equal_params_idempotent (view_id : ViewId)
    (params : EmbeddedViewParams) (st : EmbedderState)
    (h : alookup view_id st.view_params = some params) :
    (PrerollCompositeEmbeddedView view_id params st).view_params = st.view_params ∧
    PrerollCompositeEmbeddedView view_id params st =
      PrerollAlwaysAssign view_id params st := by
  constructor
  · simp [PrerollCompositeEmbeddedView, h]
  · simp [PrerollCompositeEmbeddedView, PrerollAlwaysAssign, h,
      alookup_insertOrAssign_self view_id params st.view_params h]

/-- Witness for C9. -/
theorem preroll_equal_params_idempotent_witness :
    alookup 3 stParams.view_params = some pA ∧
    ((PrerollCompositeEmbeddedView 3 pA stParams).view_params = stParams.view_params ∧
     PrerollCompositeEmbeddedView 3 pA stParams = PrerollAlwaysAssign 3 pA stParams) :=
  ⟨rfl, preroll_equal_params_idempotent 3 pA stParams rfl⟩

/-- C10: CancelFrame and Reset clear only composition_order_ and
picture_recorders_; view_params_ and view_rtrees_ persist, including
across BeginFrame, so a preroll in a later frame with value-equal params
still matches the params stored in an earlier frame and leaves the stored
map unchanged. -/
theorem reset_clears_only_order_and_recordings (st : EmbedderState)
    (fs : Int × Int) (scale : ℚ) (onPlat : Bool) (view_id : ViewId)
    (p : EmbeddedViewParams) (h : alookup view_id st.view_params = some p) :
    Reset st = { st with composition_order := [], picture_recorders := [] } ∧
    CancelFrame st = Reset st ∧
    (Reset st).view_params = st.view_params ∧
    (Reset st).view_rtrees = st.view_rtrees ∧
    (BeginFrame fs scale onPlat st).1.view_params = st.view_params ∧
    (PrerollCompositeEmbeddedView view_id p
        (BeginFrame fs scale onPlat st).1).view_params = st.view_params := by
  refine ⟨rfl, rfl, rfl, rfl, rfl, ?_⟩
  have hb : alookup view_id (BeginFrame fs scale onPlat st).1.view_params = some p := h
  simp [PrerollCompositeEmbeddedView, hb, BeginFrame, Reset, h]

/-- Witness for C10. -/
theorem reset_clears_only_order_and_recordings_witness :
    alookup 3 stParams.view_params = some pA ∧
    (Reset stParams =
       { stParams with composition_order := [], picture_recorders := [] } ∧
     CancelFrame stParams = Reset stParams ∧
     (Reset stParams).view_params = stParams.view_params ∧
     (Reset stParams).view_rtrees = stParams.view_rtrees ∧
     (BeginFrame (10, 10) 1 true stParams).1.view_params = stParams.view_params ∧
     (PrerollCompositeEmbeddedView 3 pA
         (BeginFrame (10, 10) 1 true stParams).1).view_params = stParams.view_params) :=
  ⟨rfl, reset_clears_only_order_and_recordings stParams (10, 10) 1 true 3 pA rfl⟩

/-- C3 (bug exhibited on a concrete run): the single occlusion query of
stC3 returns two rectangles and the cap is 1, so SubmitFrame collapses
them, but the C++ joins them into the default-initialized accumulator
SkRect joined_rect; with indeterminate initial value garbageC3 the
collapsed rectangle is (0, 0, 100, 100), which differs from (and strictly
contains) the union (10, 10, 40, 40) of the returned rectangles, against
the codes own comment that the rects are merged into a single one that is
the union of all the rects; SubmitFrame then uses the wrong rectangle for
both the background clip and the overlay placement. -/
theorem submitFrame_collapse_reads_uninitialized_rect :
    processIntersections 1 garbageC3 rectsC3 = [⟨0, 0, 100, 100⟩] ∧
    SkRect.roundOut (rectsC3.foldl SkRect.join SkRect.MakeEmpty) = ⟨10, 10, 40, 40⟩ ∧
    processIntersections 1 garbageC3 rectsC3 ≠
      [SkRect.roundOut (rectsC3.foldl SkRect.join SkRect.MakeEmpty)] ∧
    SubmitFrame 1 garbageC3 stC3 = some outC3 :=
  ⟨by with_unfolding_all decide, by with_unfolding_all decide,
   by with_unfolding_all decide, by with_unfolding_all rfl⟩

theorem roundOut_isIntegral (r : SkRect) : (SkRect.roundOut r).isIntegral :=
  ⟨Rat.den_intCast _, Rat.den_intCast _, Rat.den_intCast _, Rat.den_intCast _⟩

theorem roundOut_encloses (r : SkRect) : (SkRect.roundOut r).encloses r :=
  ⟨Int.floor_le _, Int.floor_le _, Int.le_ceil _, Int.le_ceil _⟩

theorem roundedRect_spec (r : SkRect) (h : RoundedRect r) :
    r.isIntegral ∧ ∃ s, r = SkRect.roundOut s ∧ r.encloses s := by
  obtain ⟨s, rfl⟩ := h
  exact ⟨roundOut_isIntegral s, s, rfl, roundOut_encloses s⟩

theorem processIntersections_rounded (cap : Nat) (garbage : SkRect)
    (rects : List SkRect) :
    ∀ r ∈ processIntersections cap garbage rects, RoundedRect r := by
  intro r hr
  unfold processIntersections at hr
  rcases List.mem_map.mp hr with ⟨s, _, hs⟩
  exact ⟨s, hs.symm⟩

theorem slotQueryLoop_rounded (cap : Nat) (garbage : SkRect) (st : EmbedderState)
    (rtree : RTreeModel) :
    ∀ (vs : List ViewId) (out : List SkRect × List Effect),
      slotQueryLoop cap garbage st rtree vs = some out →
      (∀ r ∈ out.1, RoundedRect r) ∧
      (∀ r, Effect.clipRectDifference r ∈ out.2 → RoundedRect r) ∧
      (∀ lid r, Effect.displayOverlaySurface lid r ∉ out.2) := by
  intro vs
  induction vs with
  | nil =>
      intro out h
      simp only [slotQueryLoop, Option.some.injEq] at h
      subst h
      refine ⟨by simp, by simp, by simp⟩
  | cons v rest ih =>
      intro out h
      cases hcvr : GetViewRect st v with
      | none => simp [slotQueryLoop, hcvr] at h
      | some cvr =>
          cases hrec : slotQueryLoop cap garbage st rtree rest with
          | none => simp [slotQueryLoop, hcvr, hrec] at h
          | some pr =>
              obtain ⟨restRects, restEffs⟩ := pr
              simp only [slotQueryLoop, hcvr, hrec, Option.bind_eq_bind,
                Option.some_bind, Option.some.injEq] at h
              subst h
              obtain ⟨ih1, ih2, ih3⟩ := ih (restRects, restEffs) hrec
              refine ⟨?_, ?_, ?_⟩
              · intro r hr
                rcases List.mem_append.mp hr with hr | hr
                · exact processIntersections_rounded _ _ _ r hr
                · exact ih1 r hr
              · intro r hr
                rcases List.mem_append.mp hr with hr | hr
                · rcases List.mem_map.mp hr with ⟨s, hs, hes⟩
                  cases hes
                  exact processIntersections_rounded _ _ _ _ hs
                · exact ih2 r hr
              · intro lid r hr
                rcases List.mem_append.mp hr with hr | hr
                · rcases List.mem_map.mp hr with ⟨s, _, hes⟩
                  cases hes
                · exact ih3 lid r hr

theorem backgroundLoop_rounded (cap : Nat) (garbage : SkRect) (st : EmbedderState) :
    ∀ (vs seenRev finished : List ViewId)
      (out : List (ViewId × List SkRect) × List Effect),
      backgroundLoop cap garbage st vs seenRev finished = some out →
      (∀ v rects, (v, rects) ∈ out.1 → ∀ r ∈ rects, RoundedRect r) ∧
      (∀ r, Effect.clipRectDifference r ∈ out.2 → RoundedRect r) ∧
      (∀ lid r, Effect.displayOverlaySurface lid r ∉ out.2) := by
  intro vs
  induction vs with
  | nil =>
      intro seenRev finished out h
      simp only [backgroundLoop, Option.some.injEq] at h
      subst h
      refine ⟨by simp, by simp, by simp⟩
  | cons v rest ih =>
      intro seenRev finished out h
      by_cases hf : v ∈ finished
      · simp [backgroundLoop, hf] at h
      · by_cases hp : v ∈ st.picture_recorders
        · cases ht : alookup v st.view_rtrees with
          | none => simp [backgroundLoop, hf, hp, ht] at h
          | some rtree =>
              cases hs : slotQueryLoop cap garbage st rtree (v :: seenRev) with
              | none => simp [backgroundLoop, hf, hp, ht, hs] at h
              | some slotOut =>
                  obtain ⟨slotRects, slotEffs⟩ := slotOut
                  cases hb : backgroundLoop cap garbage st rest (v :: seenRev)
                      (finished ++ [v]) with
                  | none => simp [backgroundLoop, hf, hp, ht, hs, hb] at h
                  | some restOut =>
                      obtain ⟨restOverlays, restEffs⟩ := restOut
                      simp only [backgroundLoop, hf, hp, ht, hs, hb, if_neg, if_pos,
                        ite_true, ite_false, Option.bind_eq_bind, Option.some_bind,
                        Option.some.injEq, not_false_iff] at h
                      subst h
                      obtain ⟨sl1, sl2, sl3⟩ :=
                        slotQueryLoop_rounded cap garbage st rtree (v :: seenRev)
                          (slotRects, slotEffs) hs
                      obtain ⟨ih1, ih2, ih3⟩ := ih (v :: seenRev) (finished ++ [v])
                        (restOverlays, restEffs) hb
                      refine ⟨?_, ?_, ?_⟩
                      · intro v₁ rects hmem r hrrect
                        rcases List.mem_cons.mp hmem with hmem | hmem
                        · cases hmem
                          exact sl1 r hrrect
                        · exact ih1 v₁ rects hmem r hrrect
                      · intro r hr
                        rcases List.mem_append.mp hr with hr | hr
                        · rcases List.mem_append.mp hr with hr | hr
                          · exact sl2 r hr
                          · simp at hr
                        · exact ih2 r hr
                      · intro lid r hr
                        rcases List.mem_append.mp hr with hr | hr
                        · rcases List.mem_append.mp hr with hr | hr
                          · exact sl3 lid r hr
                          · simp at hr
                        · exact ih3 lid r hr
        · simp [backgroundLoop, hf, hp] at h

theorem overlaySubmitLoop_effects (view_id : ViewId) :
    ∀ (rects : List SkRect) (pool : SurfacePool),
      (∀ lid r, Effect.displayOverlaySurface lid r ∈
        (overlaySubmitLoop view_id rects pool).2 → r ∈ rects) ∧
      (∀ r, Effect.clipRectDifference r ∉ (overlaySubmitLoop view_id rects pool).2) := by
  intro rects
  induction rects with
  | nil => intro pool; constructor <;> simp [overlaySubmitLoop]
  | cons r₀ rest ih =>
      intro pool
      constructor
      · intro lid r hr
        simp only [overlaySubmitLoop, List.mem_cons] at hr
        rcases hr with h | h | h | h
        · cases h
          exact List.mem_cons_self _ _
        · cases h
        · cases h
        · exact List.mem_cons_of_mem _
            ((ih (SurfacePool.GetLayer pool).2).1 lid r h)
      · intro r hr
        simp only [overlaySubmitLoop, List.mem_cons] at hr
        rcases hr with h | h | h | h
        · cases h
        · cases h
        · cases h
        · exact (ih (SurfacePool.GetLayer pool).2).2 r h

theorem placementLoop_effects (st : EmbedderState)
    (overlays : List (ViewId × List SkRect)) :
    ∀ (vs : List ViewId) (pool : SurfacePool) (out : SurfacePool × List Effect),
      placementLoop st overlays vs pool = some out →
      (∀ lid r, Effect.displayOverlaySurface lid r ∈ out.2 →
        ∃ v rects, (v, rects) ∈ overlays ∧ r ∈ rects) ∧
      (∀ r, Effect.clipRectDifference r ∉ out.2) := by
  intro vs
  induction vs with
  | nil =>
      intro pool out h
      simp only [placementLoop, Option.some.injEq] at h
      subst h
      refine ⟨by simp, by simp⟩
  | cons v rest ih =>
      intro pool out h
      cases hv : GetViewRect st v with
      | none => simp [placementLoop, hv] at h
      | some view_rect =>
          cases ho : alookup v overlays with
          | none => simp [placementLoop, hv, ho] at h
          | some slotRects =>
              cases hp : placementLoop st overlays rest
                  (overlaySubmitLoop v slotRects pool).1 with
              | none => simp [placementLoop, hv, ho, hp] at h
              | some restOut =>
                  obtain ⟨pool₂, restEffs⟩ := restOut
                  simp only [placementLoop, hv, ho, hp, Option.bind_eq_bind,
                    Option.some_bind, Option.some.injEq] at h
                  subst h
                  obtain ⟨ih1, ih2⟩ := ih (overlaySubmitLoop v slotRects pool).1
                    (pool₂, restEffs) hp
                  constructor
                  · intro lid r hr
                    rcases List.mem_cons.mp hr with hr | hr
                    · cases hr
                    · rcases List.mem_append.mp hr with hr | hr
                      · exact ⟨v, slotRects, alookup_mem v slotRects overlays ho,
                          (overlaySubmitLoop_effects v slotRects pool).1 lid r hr⟩
                      · exact ih1 lid r hr
                  · intro r hr
                    rcases List.mem_cons.mp hr with hr | hr
                    · cases hr
                    · rcases List.mem_append.mp hr with hr | hr
                      · exact (overlaySubmitLoop_effects v slotRects pool).2 r hr
                      · exact ih2 r hr

/-- C5: every rectangle SubmitFrame uses for a background difference clip
or for an overlay placement is an outward-rounded rectangle: it has
integer coordinates and it fully encloses the pre-rounding rectangle it
was obtained from (the query result, or the collapsed joined rectangle),
for every state, cap and accumulator value. -/
theorem submitFrame_rects_rounded_outward (cap : Nat) (garbage : SkRect)
    (st : EmbedderState) (out : EmbedderState × List Effect × Bool)
    (h : SubmitFrame cap garbage st = some out) :
    (∀ r, Effect.clipRectDifference r ∈ out.2.1 →
      r.isIntegral ∧ ∃ s, r = SkRect.roundOut s ∧ r.encloses s) ∧
    (∀ lid r, Effect.displayOverlaySurface lid r ∈ out.2.1 →
      r.isIntegral ∧ ∃ s, r = SkRect.roundOut s ∧ r.encloses s) := by
  by_cases hf : st.should_run_rasterizer_on_platform_thread
  · simp only [SubmitFrame, hf, if_true, Option.some.injEq] at h
    subst h
    refine ⟨by simp, by simp⟩
  · cases hb : backgroundLoop cap garbage st st.composition_order [] [] with
    | none => simp [SubmitFrame, hf, hb] at h
    | some bgOut =>
        obtain ⟨overlays, bgEffs⟩ := bgOut
        cases hpl : placementLoop st overlays st.composition_order st.surface_pool with
        | none => simp [SubmitFrame, hf, hb, hpl] at h
        | some plOut =>
            obtain ⟨pool, placeEffs⟩ := plOut
            simp only [SubmitFrame, hf, hb, hpl, if_false, Option.bind_eq_bind,
              Option.some_bind, Option.some.injEq, Bool.false_eq_true] at h
            subst h
            obtain ⟨bg1, bg2, bg3⟩ := backgroundLoop_rounded cap garbage st
              st.composition_order [] [] (overlays, bgEffs) hb
            obtain ⟨pl1, pl2⟩ := placementLoop_effects st overlays
              st.composition_order st.surface_pool (pool, placeEffs) hpl
            constructor
            · intro r hr
              rcases List.mem_append.mp hr with hr | hr
              · rcases List.mem_append.mp hr with hr | hr
                · exact roundedRect_spec r (bg2 r hr)
                · simp at hr
              · exact absurd hr (pl2 r)
            · intro lid r hr
              rcases List.mem_append.mp hr with hr | hr
              · rcases List.mem_append.mp hr with hr | hr
                · exact absurd hr (bg3 lid r)
                · simp at hr
              · obtain ⟨v, rects, hmem, hrin⟩ := pl1 lid r hr
                exact roundedRect_spec r ⟨(bg1 v rects hmem r hrin).choose,
                  (bg1 v rects hmem r hrin).choose_spec⟩

/-- Witness for C5: a concrete successful SubmitFrame run. -/
theorem submitFrame_rects_rounded_outward_witness :
    SubmitFrame 0 SkRect.MakeEmpty st0 = some (st0, [Effect.submitBackgroundFrame], true) ∧
    ((∀ r, Effect.clipRectDifference r ∈
        (st0, [Effect.submitBackgroundFrame], true).2.1 →
      r.isIntegral ∧ ∃ s, r = SkRect.roundOut s ∧ r.encloses s) ∧
     (∀ lid r, Effect.displayOverlaySurface lid r ∈
        (st0, [Effect.submitBackgroundFrame], true).2.1 →
      r.isIntegral ∧ ∃ s, r = SkRect.roundOut s ∧ r.encloses s)) :=
  ⟨rfl, submitFrame_rects_rounded_outward 0 SkRect.MakeEmpty st0
    (st0, [Effect.submitBackgroundFrame], true) rfl⟩
